import Mathlib

/-!
Verification of `implicit_representation_benchmark`.

We give a shallow embedding of the two source files

  * `src/utils/visualization_vispy.py` — the `Visualizer` process
    (capacity-1 multiprocessing queue, startup barrier, timer-driven
    consumer, key dispatch, stop), and
  * `src/experiments/overfit.py` — the training loop (periodic scalar
    logging, periodic checkpointing, running-best tracking).

Python mutable objects (torch tensors, dicts) are modelled as values
carrying an object identity (`id`), so that `copy.deepcopy` — which
allocates fresh objects with equal contents — is expressible, and
mutation through an object identity is expressible.  Machine floats are
modelled as rationals: every float computation in the modelled code is a
comparison or a running minimum, for which ℚ is faithful.
-/

namespace Vis

/-- A torch tensor as a Python object: an object identity plus its
contents.  `copy.deepcopy` produces an equal-contents tensor under a
fresh identity; in-place mutation targets an identity. -/
structure Tensor (α : Type) where
  id : ℕ
  elems : List α
  deriving DecidableEq, Repr

/-- The snapshot dict passed to `Visualizer.update` and consumed by
`Visualizer.on_timer`: keys `'points'`, `'predictions'`, `'labels'`
(see `on_timer`, line 95 of `visualization_vispy.py`).  Points are
3-vectors, predictions are scalars, labels are booleans. -/
structure SnapData where
  points : Tensor (ℚ × ℚ × ℚ)
  predictions : Tensor ℚ
  labels : Tensor Bool
  deriving DecidableEq, Repr

/-- The pure value of a snapshot, forgetting object identities. -/
def SnapData.value (d : SnapData) : List (ℚ × ℚ × ℚ) × List ℚ × List Bool :=
  (d.points.elems, d.predictions.elems, d.labels.elems)

/-- The object identities occurring in a snapshot. -/
def SnapData.ids (d : SnapData) : List ℕ :=
  [d.points.id, d.predictions.id, d.labels.id]

/-- `copy.deepcopy(data)` (line 135): fresh object identities drawn
from an allocation counter `n`, contents copied unchanged. -/
def deepcopy (n : ℕ) (d : SnapData) : SnapData :=
  ⟨⟨n, d.points.elems⟩, ⟨n + 1, d.predictions.elems⟩, ⟨n + 2, d.labels.elems⟩⟩

/-- In-place mutation of the `points` tensor of whatever snapshot holds
object identity `tid`: `data['points'][...] = v` seen from our
object-identity model.  A snapshot not holding `tid` is unaffected. -/
def setPoints (d : SnapData) (tid : ℕ) (v : List (ℚ × ℚ × ℚ)) : SnapData :=
  if d.points.id = tid then { d with points := ⟨tid, v⟩ } else d

/-- In-place mutation of the `predictions` tensor at identity `tid`. -/
def setPredictions (d : SnapData) (tid : ℕ) (v : List ℚ) : SnapData :=
  if d.predictions.id = tid then { d with predictions := ⟨tid, v⟩ } else d

/-- In-place mutation of the `labels` tensor at identity `tid`. -/
def setLabels (d : SnapData) (tid : ℕ) (v : List Bool) : SnapData :=
  if d.labels.id = tid then { d with labels := ⟨tid, v⟩ } else d

/-- The parent-side state of `Visualizer` relevant to `update`:
`setup_f` (line 20), the capacity-1 queue `queue_in` (line 23, contents
as a list, head = front), and the allocation counter feeding
`deepcopy`. -/
structure VisState where
  setup_f : Bool
  queue_in : List SnapData
  nextId : ℕ
  deriving DecidableEq, Repr

/-- `Visualizer.update(data)` (lines 128–135), value-level view: the
first call flips `setup_f` and performs the startup handshake
(`start`; `barrier.wait`), modelled separately in the startup system;
every call then enqueues `copy.deepcopy(data)` when the queue is
empty and otherwise returns with the snapshot discarded.  This
function renders the empty-test (line 134) and the put (line 135) as
one step, which is faithful to the values that end up in the queue
but not to timing: the put is blocking, and the fine-grained
interleaving of the test and the put with the worker's queue
operations is modelled by `QSys`/`QStep` below. -/
def update (s : VisState) (d : SnapData) : VisState :=
  let s1 := if s.setup_f then s else { s with setup_f := true }
  if s1.queue_in = [] then
    { s1 with queue_in := [deepcopy s1.nextId d], nextId := s1.nextId + 3 }
  else s1

/-- An RGB colour, as the numeric triples built in `on_timer`. -/
abbrev Color := ℚ × ℚ × ℚ

/-- Boolean-mask indexing `x[mask]` of torch: keep the entries whose
mask bit is set. -/
def maskSelect {α : Type} (xs : List α) (mask : List Bool) : List α :=
  ((xs.zip mask).filter (fun p => p.2)).map (fun p => p.1)

/-- The threshold on raw predictions equivalent to
`torch.sigmoid(p) > 0.7` (line 97): sigmoid is strictly increasing, so
the test holds iff `p > log(7/3)`.  `log(7/3)` is irrational; we fix
the rational stand-in `8473/10000`, which is faithful because only the
Boolean outcome of the comparison feeds the rest of the code.  The
fraction is written as a literal numerator/denominator pair (it is
already in lowest terms) so that comparisons against it evaluate by
kernel reduction. -/
def logit07 : ℚ := ⟨8473, 10000, by norm_num, by norm_num⟩

/-- The worker-process state of `Visualizer` read and written by
`on_timer` and `dispatch`: the queue, `last_data` (line 29), the three
toggle flags (lines 25–27), the scatter visual's current data
(positions and colours, `scatter.set_data`, line 123), and the widths
of the cube and axis visuals set by `dispatch` (lines 74–78). -/
structure WorkerState where
  queue_in : List SnapData
  last_data : Option SnapData
  color_f : Bool
  gt_f : Bool
  ref_f : Bool
  scatter : Option (List (ℚ × ℚ × ℚ) × List Color)
  cubeWidth : ℚ
  refWidth : ℚ
  deriving DecidableEq, Repr

/-- `pc * np.array([1, -1, 1])` (line 123): flip the y coordinate. -/
def flipY (p : ℚ × ℚ × ℚ) : ℚ × ℚ × ℚ := (p.1, -p.2.1, p.2.2)

/-- `positive_idxs = torch.sigmoid(predictions.squeeze(-1)) > 0.7`
(line 97), reparametrized through `logit07`. -/
def positiveIdxs (d : SnapData) : List Bool :=
  d.predictions.elems.map (fun p => decide (logit07 < p))

/-- `false_negative_idxs = labels & ~positive_idxs` (line 98). -/
def falseNegIdxs (d : SnapData) : List Bool :=
  (d.labels.elems.zip (positiveIdxs d)).map (fun p => p.1 && !p.2)

/-- `positive = points[positive_idxs]` (line 101). -/
def positivePoints (d : SnapData) : List (ℚ × ℚ × ℚ) :=
  maskSelect d.points.elems (positiveIdxs d)

/-- `false_negative = points[false_negative_idxs]` (line 104). -/
def falseNegPoints (d : SnapData) : List (ℚ × ℚ × ℚ) :=
  maskSelect d.points.elems (falseNegIdxs d)

/-- `pc` (lines 103–107): positives, with the false negatives appended
when the ground-truth flag is on. -/
def displayPC (gt : Bool) (d : SnapData) : List (ℚ × ℚ × ℚ) :=
  if gt then positivePoints d ++ falseNegPoints d else positivePoints d

/-- `p_colors` (lines 110–115): green/red by label when colouring is
on, otherwise uniform blue. -/
def pColors (color : Bool) (d : SnapData) : List Color :=
  if color then
    (maskSelect d.labels.elems (positiveIdxs d)).map
      (fun l => if l then ((0 : ℚ), (1 : ℚ), (0 : ℚ)) else (1, 0, 0))
  else List.replicate (positivePoints d).length ((0 : ℚ), (0 : ℚ), (1 : ℚ))

/-- `colors` (lines 117–121): `p_colors`, with yellow for the false
negatives appended when the ground-truth flag is on. -/
def displayColors (color gt : Bool) (d : SnapData) : List Color :=
  if gt then
    pColors color d ++ List.replicate (falseNegPoints d).length ((1 : ℚ), (1 : ℚ), (0 : ℚ))
  else pColors color d

/-- `Visualizer.on_timer` (lines 89–124): if the queue is non-empty,
dequeue one snapshot, record it as `last_data`, compute the positive
and false-negative points, and — only when the resulting point cloud is
non-empty (`if pc.shape[0] != 0`, line 109) — push positions and
colours to the scatter visual. -/
def on_timer (s : WorkerState) : WorkerState :=
  match s.queue_in with
  | [] => s
  | data :: rest =>
    let pc := displayPC s.gt_f data
    let s1 := { s with queue_in := rest, last_data := some data }
    if pc.length ≠ 0 then
      { s1 with scatter := some (pc.map flipY, displayColors s.color_f s.gt_f data) }
    else s1

/-- The tail of `Visualizer.dispatch` (lines 83–87):
`queue_in.put(last_data, block=False)` with `queue.Full` caught and
swallowed.  The queue was built with capacity 1 (line 23), so the
non-blocking put succeeds exactly when the queue is empty. -/
def dispatchPut (s : WorkerState) : WorkerState :=
  match s.last_data with
  | none => s
  | some d => if s.queue_in.length < 1 then { s with queue_in := s.queue_in ++ [d] } else s

/-- `Visualizer.dispatch(event)` (lines 66–87), keyed by `event.text`:
`'c'` and `'g'` toggle a flag then re-enqueue `last_data`; `'r'`
toggles the reference visuals and returns; anything else returns. -/
def dispatch (s : WorkerState) (key : String) : WorkerState :=
  if key = "c" then dispatchPut { s with color_f := !s.color_f }
  else if key = "g" then dispatchPut { s with gt_f := !s.gt_f }
  else if key = "r" then
    let s1 := { s with ref_f := !s.ref_f }
    if s1.ref_f then { s1 with cubeWidth := 10, refWidth := 10 }
    else { s1 with cubeWidth := 0, refWidth := 0 }
  else s

/-! ### The queue as a concurrent object

`queue_in = Queue(1)` (line 23) is shared between the parent (which
runs `update`) and the worker (which runs `dispatch` and `on_timer`).
`QStep` is the fine-grained interleaving: the parent's empty-test
(line 134) and blocking put (line 135) are separate steps, so every
interleaving with the worker's non-blocking put (line 85, `Full`
caught at line 86) and get (line 92) is covered.  A blocking put on a
capacity-1 queue is enabled only while the queue holds fewer than one
item; item payloads are irrelevant here and abstracted to `ℕ`. -/

/-- Where the parent is inside `update`'s queue code: at rest, or
between the empty-test and the put. -/
inductive UPhase where
  | idle
  | pendingPut
  deriving DecidableEq, Repr

/-- A state of the shared queue system: the parent's position, the
queue contents, and the worker's `last_data` (what `dispatch` would
re-enqueue). -/
structure QSys where
  uphase : UPhase
  q : List ℕ
  last : Option ℕ
  deriving DecidableEq, Repr

/-- One interleaved step of parent (`update`), worker key handler
(`dispatch`) or worker timer (`on_timer`) acting on the shared
capacity-1 queue. -/
inductive QStep : QSys → QSys → Prop where
  | updEmpty (s : QSys) : s.uphase = .idle → s.q = [] →
      QStep s { s with uphase := .pendingPut }
  | updNonempty (s : QSys) : s.uphase = .idle → s.q ≠ [] → QStep s s
  | updPut (s : QSys) (d : ℕ) : s.uphase = .pendingPut → s.q.length < 1 →
      QStep s { s with uphase := .idle, q := s.q ++ [d] }
  | dispPut (s : QSys) (d : ℕ) : s.last = some d → s.q.length < 1 →
      QStep s { s with q := s.q ++ [d] }
  | dispFull (s : QSys) (d : ℕ) : s.last = some d → ¬ s.q.length < 1 → QStep s s
  | timerGet (s : QSys) (d : ℕ) (rest : List ℕ) : s.q = d :: rest →
      QStep s { s with q := rest, last := some d }
  | timerEmpty (s : QSys) : s.q = [] → QStep s s

/-- The initial queue system: parent at rest, queue empty, no
`last_data` yet. -/
def QSys.init : QSys := ⟨.idle, [], none⟩

/-- Reachability of the shared queue system under arbitrary
interleaving. -/
inductive QReach : QSys → Prop where
  | init : QReach QSys.init
  | step {s t : QSys} : QReach s → QStep s t → QReach t

/-! ### Startup handshake

`update`'s first call (lines 129–132: `setup_f` test and set,
`self.start()`, `self.barrier.wait()`) against the worker's `run`
(lines 31–34: `build_gui()`, `self.barrier.wait()`, `app.run()`), with
`Barrier(2)` (line 21) releasing both parties together. -/

/-- The parent's position across calls to `update`: about to call,
blocked at the startup `barrier.wait`, or past the setup block inside
a call. -/
inductive ParentPC where
  | ready
  | atBarrier
  | body
  deriving DecidableEq, Repr

/-- The worker's position in `run`: not yet spawned, before
`build_gui` returns, blocked at `barrier.wait`, or inside
`app.run()`. -/
inductive WorkerPC where
  | notStarted
  | beforeBuild
  | atBarrier
  | looping
  deriving DecidableEq, Repr

/-- A state of the startup system: both program counters, the number
of completed `update` calls, `setup_f`, whether `build_gui` has
completed (the rendering context exists), and how many times the
two-party barrier has released. -/
structure StartSys where
  ppc : ParentPC
  updatesDone : ℕ
  wpc : WorkerPC
  setup_f : Bool
  guiBuilt : Bool
  releases : ℕ
  deriving DecidableEq, Repr

/-- One step of the startup system. -/
inductive SStep : StartSys → StartSys → Prop where
  /-- A call to `update` finds `setup_f` false (first call): set it,
  `start()` the worker, arrive at the barrier (lines 129–132). -/
  | beginFirst (s : StartSys) : s.ppc = .ready → s.setup_f = false →
      SStep s { s with ppc := .atBarrier, setup_f := true, wpc := .beforeBuild }
  /-- A call to `update` finds `setup_f` true: skip the setup block. -/
  | beginLater (s : StartSys) : s.ppc = .ready → s.setup_f = true →
      SStep s { s with ppc := .body }
  /-- The worker completes `build_gui()` and arrives at the barrier
  (lines 32–33). -/
  | workerBuild (s : StartSys) : s.wpc = .beforeBuild →
      SStep s { s with wpc := .atBarrier, guiBuilt := true }
  /-- Both parties are at the two-party barrier: it releases both. -/
  | release (s : StartSys) : s.ppc = .atBarrier → s.wpc = .atBarrier →
      SStep s { s with ppc := .body, wpc := .looping, releases := s.releases + 1 }
  /-- The parent finishes the body of `update` and returns. -/
  | finishBody (s : StartSys) : s.ppc = .body →
      SStep s { s with ppc := .ready, updatesDone := s.updatesDone + 1 }

/-- The initial startup state, per `__init__` (lines 17–29). -/
def StartSys.init : StartSys := ⟨.ready, 0, .notStarted, false, false, 0⟩

/-- Reachability of the startup system. -/
inductive SReach : StartSys → Prop where
  | init : SReach StartSys.init
  | step {s t : StartSys} : SReach s → SStep s t → SReach t

/-- The inductive invariant of the startup system: the barrier
releases at most once, the parent waits only during the first
`update`, the rendering context exists from the moment the worker
reaches the barrier, and once the parent is past the setup block the
worker is in its event loop. -/
def SInv (s : StartSys) : Prop :=
  (s.setup_f = false →
    s.wpc = .notStarted ∧ s.releases = 0 ∧ s.updatesDone = 0 ∧ s.ppc = .ready) ∧
  (s.ppc = .atBarrier → s.updatesDone = 0 ∧ s.setup_f = true ∧
    (s.wpc = .beforeBuild ∨ s.wpc = .atBarrier) ∧ s.releases = 0) ∧
  (s.guiBuilt = true ↔ (s.wpc = .atBarrier ∨ s.wpc = .looping)) ∧
  s.releases ≤ 1 ∧
  (s.releases = 1 ↔ s.wpc = .looping) ∧
  ((s.ppc = .body ∨ 1 ≤ s.updatesDone) → s.wpc = .looping) ∧
  (s.setup_f = true → s.ppc = .ready → 1 ≤ s.updatesDone)

/-! ### Shutdown -/

/-- The worker's event loop plus the shared queue, as `stop` sees
them. -/
structure LoopState where
  running : Bool
  queue_in : List SnapData
  deriving DecidableEq, Repr

/-- Modelled from the external library's documented behaviour:
`vispy.app.quit()` terminates the event loop.  It touches nothing
else. -/
def app_quit (s : LoopState) : LoopState := { s with running := false }

/-- `Visualizer.stop` (lines 137–138): the single call `app.quit()`. -/
def stop (s : LoopState) : LoopState := app_quit s

end Vis

namespace Overfit

/-!
The training loop of `src/experiments/overfit.py`, `main`
(lines 66–137).  The numerics (sampling, the model step, the Chamfer
evaluation) live in external code; what the loop itself determines is
*which* effects happen at *which* iteration, and how `best` evolves.
We therefore model each iteration as the list of effects it emits,
parametrised by the chamfer value `c i` that line 82 computes at
iteration `i` (a machine float, modelled as ℚ), and thread `best`
(initially `np.inf`, line 64, modelled as `⊤ : WithTop ℚ`).
-/

/-- An observable effect of one iteration of the training loop. -/
inductive TrainEvent where
  /-- `sample_point_cloud_pc(...)` (line 68). -/
  | sample
  /-- `model.step(x, labels, optimizer)` (line 73). -/
  | modelStep
  /-- `logger.report_scalar(title, series, ...)`. -/
  | logScalar (title series : String)
  /-- `logger.report_plotly(title, series, ...)`. -/
  | reportPlotly (title series : String)
  /-- `torch.save(model.state_dict(), ckpt_dir / f)`. -/
  | saveCkpt (f : String)
  deriving DecidableEq, Repr

/-- The body of iteration `i` (lines 67–137): always sample and step;
at `(i+1) % 1000 == 0` report the `loss` and `chamfer` scalars
(lines 77–85); at `(i+1) % 5000 == 0` report the three plotly figures
and the `real` scalar, save `latest.pth`, and save `best.pth` exactly
when `best > chamfer_real` — also updating `best` (lines 87–135).
Returns the emitted events and the new `best`. -/
def iterBody (c : ℕ → ℚ) (best : WithTop ℚ) (i : ℕ) : List TrainEvent × WithTop ℚ :=
  let evs := [TrainEvent.sample, TrainEvent.modelStep]
  let evs := evs ++ (if (i + 1) % 1000 = 0 then
      [TrainEvent.logScalar "Loss" "loss", TrainEvent.logScalar "Chamfer" "chamfer"]
    else [])
  if (i + 1) % 5000 = 0 then
    let evs := evs ++ [TrainEvent.reportPlotly "Point Clouds" "precision_recall",
                       TrainEvent.reportPlotly "Point Clouds" "reconstruction",
                       TrainEvent.logScalar "Chamfer" "real",
                       TrainEvent.reportPlotly "Point Clouds" "input points",
                       TrainEvent.saveCkpt "latest.pth"]
    if (c i : WithTop ℚ) < best then (evs ++ [TrainEvent.saveCkpt "best.pth"], (c i : WithTop ℚ))
    else (evs, best)
  else (evs, best)

/-- The loop `for i in trange(epochs)` run for `n` iterations: the
per-iteration event lists and the final `best`, starting from
`best = np.inf` (line 64). -/
def trainTrace (c : ℕ → ℚ) : ℕ → List (List TrainEvent) × WithTop ℚ
  | 0 => ([], (⊤ : WithTop ℚ))
  | n + 1 =>
    let t := trainTrace c n
    let b := iterBody c t.2 n
    (t.1 ++ [b.1], b.2)

/-- The value of `best` after `n` iterations. -/
def bestAfter (c : ℕ → ℚ) (n : ℕ) : WithTop ℚ := (trainTrace c n).2

/-- The events iteration `i` emits in the run determined by `c`. -/
def iterEvents (c : ℕ → ℚ) (i : ℕ) : List TrainEvent :=
  (iterBody c (bestAfter c i) i).1

end Overfit

namespace Chamfer

/-!
### Chamfer distance

Modelled from the spec: `ChamferDistanceL1` is imported from
`metrics/chamfer_dist.py`, which is not under `src/`; the spec
describes it as "a symmetric nearest-neighbor distance metric between
two point sets".  We model the standard L1 chamfer distance: the
average, over each set, of the distance to the nearest neighbour in
the other set, summed over both directions.
-/

/-- The L1 distance between two 3-d points. -/
def l1dist (a b : ℚ × ℚ × ℚ) : ℚ :=
  |a.1 - b.1| + |a.2.1 - b.2.1| + |a.2.2 - b.2.2|

/-- Distance from `a` to its nearest neighbour in `B` (0 when `B` is
empty). -/
def nnDist (a : ℚ × ℚ × ℚ) (B : List (ℚ × ℚ × ℚ)) : ℚ :=
  match B with
  | [] => 0
  | b :: bs => (bs.map (l1dist a)).foldr min (l1dist a b)

/-- One direction of the chamfer distance: the mean over `A` of the
nearest-neighbour distance into `B`. -/
def chamferSide (A B : List (ℚ × ℚ × ℚ)) : ℚ :=
  (A.map (fun a => nnDist a B)).sum / A.length

/-- `ChamferDistanceL1`, modelled from the spec: the two directed
means, summed. -/
def chamferL1 (A B : List (ℚ × ℚ × ℚ)) : ℚ :=
  chamferSide A B + chamferSide B A

end Chamfer

/-! ## Theorems -/

namespace Vis

/-- `deepcopy` copies the contents: the copy has the same pure value
as the original. -/
theorem deepcopy_value (n : ℕ) (d : SnapData) : (deepcopy n d).value = d.value := rfl

/-- `update` against a non-empty queue leaves the queue untouched. -/
theorem update_queue_nonempty (s : VisState) (d : SnapData) (h : s.queue_in ≠ []) :
    (update s d).queue_in = s.queue_in := by
  unfold update
  by_cases hs : s.setup_f <;> simp [hs, h]

/-- Claim C1, counterexample: `update` *can* block after setup.  The
empty-test (line 134) and the blocking put (line 135) are separate
steps on the shared queue, and the interleaving in which the worker's
`dispatch` re-enqueues `last_data` between them is reachable: from the
initial state, one complete `update` (test, put), one timer get (which
sets `last_data`), then the next `update`'s empty-test followed by a
`dispatch` put yields the state ⟨pendingPut, [5], some 5⟩.  There the
parent is between its empty-test and its put, the queue is full, and
no step lets the parent proceed to `idle`: its blocking put waits
until the worker drains the queue, so `update` does not return. -/
theorem C1_counterexample :
    QReach ⟨.pendingPut, [5], some 5⟩ ∧
    ¬ (⟨UPhase.pendingPut, [5], some 5⟩ : QSys).q.length < 1 ∧
    (∀ t, QStep ⟨.pendingPut, [5], some 5⟩ t → t.uphase = .pendingPut) := by
  refine ⟨?_, by decide, ?_⟩
  · have h0 : QReach QSys.init := QReach.init
    have h1 : QReach ⟨.pendingPut, [], none⟩ :=
      QReach.step h0 (QStep.updEmpty _ rfl rfl)
    have h2 : QReach ⟨.idle, [5], none⟩ :=
      QReach.step h1 (QStep.updPut _ 5 rfl (by decide))
    have h3 : QReach ⟨.idle, [], some 5⟩ :=
      QReach.step h2 (QStep.timerGet _ 5 [] rfl)
    have h4 : QReach ⟨.pendingPut, [], some 5⟩ :=
      QReach.step h3 (QStep.updEmpty _ rfl rfl)
    exact QReach.step h4 (QStep.dispPut _ 5 rfl (by decide))
  · intro t hst
    cases hst <;> simp_all

/-- Claim C1 as amended: after setup, `update(data)` never raises and
signals nothing to the caller, and it enqueues the (deep-copied)
snapshot exactly when the queue is empty at its empty-test, otherwise
returning with the state — in particular the queue — unchanged; but it
is not unconditionally non-blocking: in the fine-grained model, a
parent sitting between the empty-test and the put can complete the put
in one step exactly when the queue has space, so when a concurrent
`dispatch` put has filled the queue, `update` blocks until the worker
drains it. -/
theorem C1_update_enqueue_or_discard (s : VisState) (d : SnapData)
    (h : s.setup_f = true) :
    (update s d).setup_f = true ∧
    (s.queue_in = [] →
      update s d = { s with queue_in := [deepcopy s.nextId d], nextId := s.nextId + 3 }) ∧
    (s.queue_in ≠ [] → update s d = s) ∧
    (∀ q : QSys, q.uphase = .pendingPut →
      ((∃ t, QStep q t ∧ t.uphase = .idle) ↔ q.q.length < 1)) := by
  refine ⟨?_, ?_, ?_, ?_⟩
  · unfold update
    by_cases hq : s.queue_in = [] <;> simp [h, hq]
  · intro hq
    unfold update
    simp [h, hq]
  · intro hq
    unfold update
    simp [h, hq]
  · intro q hq
    constructor
    · rintro ⟨t, hst, hidle⟩
      cases hst <;> simp_all
    · intro hlt
      exact ⟨_, QStep.updPut q 0 hq hlt, rfl⟩

/-- Concrete instantiation of `C1_update_enqueue_or_discard`. -/
theorem C1_witness :
    let s : VisState := ⟨true, [], 0⟩
    let d : SnapData := ⟨⟨0, [(1, 2, 3)]⟩, ⟨1, [0]⟩, ⟨2, [true]⟩⟩
    (update s d).setup_f = true ∧
    (s.queue_in = [] →
      update s d = { s with queue_in := [deepcopy s.nextId d], nextId := s.nextId + 3 }) ∧
    (s.queue_in ≠ [] → update s d = s) ∧
    (∀ q : QSys, q.uphase = .pendingPut →
      ((∃ t, QStep q t ∧ t.uphase = .idle) ↔ q.q.length < 1)) :=
  C1_update_enqueue_or_discard _ _ rfl

/-- Claim C2, counterexample: two `update` calls against an initially
empty queue with no consumption in between leave the *first* snapshot
in the queue, not the most recent one: `update` drops the newer
snapshot, so the policy is not most-recent-wins. -/
theorem C2_counterexample :
    let s0 : VisState := ⟨true, [], 10⟩
    let d1 : SnapData := ⟨⟨0, [(1, 0, 0)]⟩, ⟨1, []⟩, ⟨2, []⟩⟩
    let d2 : SnapData := ⟨⟨3, [(2, 0, 0)]⟩, ⟨4, []⟩, ⟨5, []⟩⟩
    (update (update s0 d1) d2).queue_in.map SnapData.value = [d1.value] ∧
    (update (update s0 d1) d2).queue_in.map SnapData.value ≠ [d2.value] := by
  constructor <;> decide

/-- Claim C2 as amended: the drop policy is oldest-wins (drop-newest):
for every sequence of `update` calls with no intervening consumption,
starting from an empty queue after setup, the snapshot held in the
queue is (a deep copy of) the *first* snapshot passed, and every later
snapshot is the one discarded. -/
theorem C2_oldest_wins (s : VisState) (d : SnapData) (ds : List SnapData)
    (h : s.setup_f = true) (hq : s.queue_in = []) :
    ((ds.foldl update (update s d)).queue_in).map SnapData.value = [d.value] := by
  have h0 : (update s d).queue_in.map SnapData.value = [d.value] := by
    unfold update
    simp [h, hq, deepcopy_value]
  have key : ∀ (l : List SnapData) (t : VisState),
      t.queue_in.map SnapData.value = [d.value] →
      ((l.foldl update t).queue_in).map SnapData.value = [d.value] := by
    intro l
    induction l with
    | nil => intro t ht; exact ht
    | cons a l ih =>
      intro t ht
      have hne : t.queue_in ≠ [] := by
        intro hcon
        rw [hcon] at ht
        simp at ht
      have hupd : (update t a).queue_in = t.queue_in := update_queue_nonempty t a hne
      rw [List.foldl_cons]
      exact ih _ (by rw [hupd]; exact ht)
  exact key ds _ h0

/-- Concrete instantiation of `C2_oldest_wins`. -/
theorem C2_witness :
    let s0 : VisState := ⟨true, [], 10⟩
    let d1 : SnapData := ⟨⟨0, [(1, 0, 0)]⟩, ⟨1, []⟩, ⟨2, []⟩⟩
    let d2 : SnapData := ⟨⟨3, [(2, 0, 0)]⟩, ⟨4, []⟩, ⟨5, []⟩⟩
    (([d2].foldl update (update s0 d1)).queue_in).map SnapData.value = [d1.value] :=
  C2_oldest_wins _ _ _ rfl rfl

/-- Claim C3, counterexample: a tick with a non-empty queue does
dequeue, but does *not* redraw when the dequeued snapshot yields an
empty display point cloud (no positive prediction and no false
negative): the scatter visual is left untouched, because of the
`if pc.shape[0] != 0` guard (line 109). -/
theorem C3_counterexample :
    let d : SnapData := ⟨⟨0, [(0, 0, 0)]⟩, ⟨1, [0]⟩, ⟨2, [false]⟩⟩
    let s : WorkerState := ⟨[d], none, true, true, true, none, 10, 10⟩
    s.queue_in ≠ [] ∧
    (on_timer s).queue_in = [] ∧
    (on_timer s).last_data = some d ∧
    (on_timer s).scatter = s.scatter := by
  refine ⟨?_, ?_, ?_, ?_⟩ <;> decide

/-- Claim C3 as amended: on a tick with the queue empty, `on_timer` is
a no-op (no dequeue, no state change, no redraw); on a tick with the
queue non-empty it dequeues exactly one item, records it as
`last_data`, and redraws (pushes positions and colours to the scatter
visual) if and only if the display point cloud computed from the
dequeued snapshot is non-empty — otherwise nothing else changes. -/
theorem C3_on_timer_dequeue_redraw (s : WorkerState) :
    (s.queue_in = [] → on_timer s = s) ∧
    (∀ d rest, s.queue_in = d :: rest →
      (on_timer s).queue_in = rest ∧
      (on_timer s).last_data = some d ∧
      (displayPC s.gt_f d ≠ [] →
        on_timer s = { s with queue_in := rest, last_data := some d,
                              scatter := some ((displayPC s.gt_f d).map flipY,
                                               displayColors s.color_f s.gt_f d) }) ∧
      (displayPC s.gt_f d = [] →
        on_timer s = { s with queue_in := rest, last_data := some d })) := by
  constructor
  · intro h
    unfold on_timer
    rw [h]
  · intro d rest h
    by_cases hpc : displayPC s.gt_f d = []
    · unfold on_timer
      rw [h]
      simp [hpc]
    · unfold on_timer
      rw [h]
      simp [hpc, List.length_eq_zero.not.mpr hpc]

/-- Concrete instantiation of `C3_on_timer_dequeue_redraw`. -/
theorem C3_witness :
    let d : SnapData := ⟨⟨0, [(0, 0, 0)]⟩, ⟨1, [1]⟩, ⟨2, [true]⟩⟩
    let s : WorkerState := ⟨[d], none, true, true, true, none, 10, 10⟩
    (s.queue_in = [] → on_timer s = s) ∧
    (∀ e rest, s.queue_in = e :: rest →
      (on_timer s).queue_in = rest ∧
      (on_timer s).last_data = some e ∧
      (displayPC s.gt_f e ≠ [] →
        on_timer s = { s with queue_in := rest, last_data := some e,
                              scatter := some ((displayPC s.gt_f e).map flipY,
                                               displayColors s.color_f s.gt_f e) }) ∧
      (displayPC s.gt_f e = [] →
        on_timer s = { s with queue_in := rest, last_data := some e })) :=
  C3_on_timer_dequeue_redraw _

/-- Claim C4: under every interleaving of the parent's `update` (split
into its empty-test and its blocking put), the worker's `dispatch`
re-enqueue (non-blocking put, `Full` swallowed) and the worker's
timer-driven get, every reachable state of the shared `Queue(1)` holds
at most one item. -/
theorem C4_queue_capacity_one (s : QSys) (h : QReach s) : s.q.length ≤ 1 := by
  induction h with
  | init => simp [QSys.init]
  | step hr hst ih =>
    cases hst with
    | updEmpty h1 h2 => exact ih
    | updNonempty h1 h2 => exact ih
    | updPut d h1 h2 => simpa using Nat.succ_le_of_lt h2
    | dispPut d h1 h2 => simpa using Nat.succ_le_of_lt h2
    | dispFull d h1 h2 => exact ih
    | timerGet d rest h1 =>
      rw [h1] at ih
      simp only [List.length_cons] at ih
      show rest.length ≤ 1
      omega
    | timerEmpty h1 => exact ih

/-- Concrete instantiation of `C4_queue_capacity_one`: the state
reached by the parent's empty-test followed by its put. -/
theorem C4_witness : (⟨UPhase.idle, [7], none⟩ : QSys).q.length ≤ 1 :=
  C4_queue_capacity_one _
    (QReach.step (QReach.step QReach.init (QStep.updEmpty _ rfl rfl))
      (QStep.updPut _ 7 rfl (by decide)))

/-- The invariant `SInv` holds initially. -/
theorem sinv_init : SInv StartSys.init := by
  simp [SInv, StartSys.init]

/-- The invariant `SInv` is preserved by every step of the startup
system. -/
theorem sinv_step {s t : StartSys} (hinv : SInv s) (hst : SStep s t) : SInv t := by
  obtain ⟨i1, i2, i3, i4, i5, i6, i7⟩ := hinv
  cases hst with
  | beginFirst h1 h2 =>
    obtain ⟨w1, w2, w3, w4⟩ := i1 h2
    refine ⟨?_, ?_, ?_, ?_, ?_, ?_, ?_⟩ <;> simp_all [SInv]
  | beginLater h1 h2 =>
    have hup := i7 h2 h1
    have hloop := i6 (Or.inr hup)
    refine ⟨?_, ?_, ?_, ?_, ?_, ?_, ?_⟩ <;> simp_all
  | workerBuild h1 =>
    refine ⟨?_, ?_, ?_, ?_, ?_, ?_, ?_⟩ <;> simp_all
  | release h1 h2 =>
    obtain ⟨w1, w2, w3, w4⟩ := i2 h1
    refine ⟨?_, ?_, ?_, ?_, ?_, ?_, ?_⟩ <;> simp_all
  | finishBody h1 =>
    have hloop := i6 (Or.inl h1)
    refine ⟨?_, ?_, ?_, ?_, ?_, ?_, ?_⟩ <;> simp_all

/-- Every reachable state of the startup system satisfies `SInv`. -/
theorem sreach_sinv {s : StartSys} (h : SReach s) : SInv s := by
  induction h with
  | init => exact sinv_init
  | step hr hst ih => exact sinv_step ih hst

/-- Claim C5: the two-party rendezvous barrier is passed exactly once,
at worker startup: in every reachable state, the barrier has released
at most once; the parent is blocked at the barrier only during the
first `update` call (no completed calls yet); while `setup_f` is still
false the worker has not been started; and whenever the parent is past
the setup block of `update` — in particular after the first call
completes — `build_gui` has finished (the rendering context exists)
and the barrier has released exactly once, never to be waited on
again. -/
theorem C5_barrier_exactly_once (s : StartSys) (h : SReach s) :
    s.releases ≤ 1 ∧
    (s.ppc = .atBarrier → s.updatesDone = 0 ∧ s.setup_f = true) ∧
    (s.setup_f = false → s.wpc = .notStarted ∧ s.releases = 0) ∧
    ((s.ppc = .body ∨ 1 ≤ s.updatesDone) → s.guiBuilt = true ∧ s.releases = 1) := by
  obtain ⟨i1, i2, i3, i4, i5, i6, i7⟩ := sreach_sinv h
  refine ⟨i4, ?_, ?_, ?_⟩
  · intro hb
    exact ⟨(i2 hb).1, (i2 hb).2.1⟩
  · intro hf
    exact ⟨(i1 hf).1, (i1 hf).2.1⟩
  · intro hpast
    have hloop := i6 hpast
    exact ⟨i3.mpr (Or.inr hloop), i5.mpr hloop⟩

/-- Concrete instantiation of `C5_barrier_exactly_once`: the state
after the first `update` call has started the worker, the worker has
built the GUI, and the barrier has released both parties. -/
theorem C5_witness :
    let s : StartSys := ⟨.body, 0, .looping, true, true, 1⟩
    s.releases ≤ 1 ∧
    (s.ppc = .atBarrier → s.updatesDone = 0 ∧ s.setup_f = true) ∧
    (s.setup_f = false → s.wpc = .notStarted ∧ s.releases = 0) ∧
    ((s.ppc = .body ∨ 1 ≤ s.updatesDone) → s.guiBuilt = true ∧ s.releases = 1) :=
  C5_barrier_exactly_once _
    (SReach.step
      (SReach.step
        (SReach.step SReach.init (SStep.beginFirst _ rfl rfl))
        (SStep.workerBuild _ rfl))
      (SStep.release _ rfl rfl))

/-- Claim C6: `stop()` terminates the worker's event loop (the single
call `app.quit()`) and performs no queue operation: whatever the queue
held at the time of the call is still there, undelivered. -/
theorem C6_stop_no_drain (s : LoopState) :
    (stop s).running = false ∧ (stop s).queue_in = s.queue_in :=
  ⟨rfl, rfl⟩

/-- Claim C10: `update` enqueues a deep copy: when it enqueues (queue
empty, after setup), the enqueued snapshot has the same pure value as
`data` but shares no object identity with it (given that `data`'s
identities predate the allocation counter), and any later in-place
mutation through one of `data`'s object identities leaves the enqueued
snapshot unchanged. -/
theorem C10_update_enqueues_deep_copy (s : VisState) (d : SnapData)
    (hs : s.setup_f = true) (hq : s.queue_in = [])
    (hfresh : ∀ tid ∈ d.ids, tid < s.nextId) :
    ∃ q : SnapData, (update s d).queue_in = [q] ∧
      q.value = d.value ∧
      (∀ tid ∈ d.ids, tid ∉ q.ids) ∧
      (∀ tid ∈ d.ids, ∀ (vp : List (ℚ × ℚ × ℚ)) (vq : List ℚ) (vl : List Bool),
        setPoints q tid vp = q ∧ setPredictions q tid vq = q ∧ setLabels q tid vl = q) := by
  refine ⟨deepcopy s.nextId d, ?_, deepcopy_value _ _, ?_, ?_⟩
  · unfold update
    simp [hs, hq]
  · intro tid htid
    have hlt := hfresh tid htid
    simp only [deepcopy, SnapData.ids, List.mem_cons, List.not_mem_nil, or_false]
    push_neg
    omega
  · intro tid htid vp vq vl
    have hlt := hfresh tid htid
    refine ⟨?_, ?_, ?_⟩
    · unfold setPoints deepcopy
      simp only []
      rw [if_neg (by omega)]
    · unfold setPredictions deepcopy
      simp only []
      rw [if_neg (by omega)]
    · unfold setLabels deepcopy
      simp only []
      rw [if_neg (by omega)]

/-- Concrete instantiation of `C10_update_enqueues_deep_copy`. -/
theorem C10_witness :
    let s : VisState := ⟨true, [], 100⟩
    let d : SnapData := ⟨⟨0, [(1, 2, 3)]⟩, ⟨1, [1/2]⟩, ⟨2, [true]⟩⟩
    ∃ q : SnapData, (update s d).queue_in = [q] ∧
      q.value = d.value ∧
      (∀ tid ∈ d.ids, tid ∉ q.ids) ∧
      (∀ tid ∈ d.ids, ∀ (vp : List (ℚ × ℚ × ℚ)) (vq : List ℚ) (vl : List Bool),
        setPoints q tid vp = q ∧ setPredictions q tid vq = q ∧ setLabels q tid vl = q) :=
  C10_update_enqueues_deep_copy _ _ rfl rfl (by decide)

end Vis

namespace Overfit

/-- A checkpoint iteration is also a scalar-logging iteration:
`1000 ∣ 5000`. -/
theorem mod1000_of_mod5000 (i : ℕ) (h : (i + 1) % 5000 = 0) : (i + 1) % 1000 = 0 := by
  have hd : (i + 1) % 5000 % 1000 = (i + 1) % 1000 :=
    Nat.mod_mod_of_dvd _ (by norm_num)
  rw [h] at hd
  simpa using hd.symm

/-- The per-iteration event lists of the trace are exactly
`iterEvents`. -/
theorem trainTrace_fst (c : ℕ → ℚ) (n : ℕ) :
    (trainTrace c n).1 = (List.range n).map (iterEvents c) := by
  induction n with
  | zero => rfl
  | succ n ih =>
    rw [List.range_succ, List.map_append]
    show (trainTrace c n).1 ++ [(iterBody c (trainTrace c n).2 n).1] = _
    rw [ih]
    rfl

/-- Unrolling `bestAfter` by one iteration. -/
theorem bestAfter_succ (c : ℕ → ℚ) (n : ℕ) :
    bestAfter c (n + 1) = (iterBody c (bestAfter c n) n).2 := rfl

/-- The `best` produced by one iteration: it changes — to the current
chamfer value — exactly at a checkpoint iteration whose chamfer value
is strictly below it. -/
theorem iterBody_snd (c : ℕ → ℚ) (b : WithTop ℚ) (i : ℕ) :
    (iterBody c b i).2 =
      (if (i + 1) % 5000 = 0 ∧ (c i : WithTop ℚ) < b
       then (c i : WithTop ℚ) else b) := by
  unfold iterBody
  by_cases h5 : (i + 1) % 5000 = 0 <;>
    by_cases hlt : (c i : WithTop ℚ) < b <;>
      simp [h5, hlt]

/-- Folding `min` over a list with one element appended. -/
theorem foldr_min_concat (l : List (WithTop ℚ)) (x e : WithTop ℚ) :
    (l ++ [x]).foldr min e = min (l.foldr min e) x := by
  induction l with
  | nil => simp [min_comm]
  | cons a l ih => simp [ih, min_assoc]

/-- `best` after `n` iterations is the minimum of the chamfer values
observed at the checkpoint iterations among `0..n-1` (and `⊤ = np.inf`
while there has been none). -/
theorem bestAfter_eq_min_fold (c : ℕ → ℚ) (n : ℕ) :
    bestAfter c n =
      (((List.range n).filter (fun j => (j + 1) % 5000 = 0)).map
        (fun j => (c j : WithTop ℚ))).foldr min ⊤ := by
  induction n with
  | zero => rfl
  | succ n ih =>
    have hrec : bestAfter c (n + 1) =
        (if (n + 1) % 5000 = 0 ∧ (c n : WithTop ℚ) < bestAfter c n
         then (c n : WithTop ℚ) else bestAfter c n) := by
      rw [bestAfter_succ, iterBody_snd]
    rw [hrec, List.range_succ, List.filter_append, List.map_append]
    by_cases h5 : (n + 1) % 5000 = 0
    · by_cases hlt : (c n : WithTop ℚ) < bestAfter c n
      · rw [if_pos ⟨h5, hlt⟩]
        simp only [List.filter_cons, List.filter_nil, h5, decide_True, if_true,
          List.map_cons, List.map_nil]
        rw [foldr_min_concat, ← ih]
        exact (min_eq_right (le_of_lt hlt)).symm
      · rw [if_neg (by tauto)]
        simp only [List.filter_cons, List.filter_nil, h5, decide_True, if_true,
          List.map_cons, List.map_nil]
        rw [foldr_min_concat, ← ih]
        exact (min_eq_left (not_lt.mp hlt)).symm
    · rw [if_neg (by tauto)]
      simp [h5, ih]

/-- Claim C7: the training loop is an iterate–compute–log–checkpoint
sequence with fixed periods: each iteration `i` samples training data
and takes one model step; the `loss` and `chamfer` scalars are logged
exactly when `(i+1)` is a multiple of 1000; `latest.pth` and the
plotly figures are written exactly when `(i+1)` is a multiple of 5000;
and at every other iteration no scalar is logged, no figure is
reported, and no checkpoint is saved. -/
theorem C7_loop_schedule (c : ℕ → ℚ) (n i : ℕ) :
    (trainTrace c n).1 = (List.range n).map (iterEvents c) ∧
    TrainEvent.sample ∈ iterEvents c i ∧
    TrainEvent.modelStep ∈ iterEvents c i ∧
    (TrainEvent.logScalar "Loss" "loss" ∈ iterEvents c i ↔ (i + 1) % 1000 = 0) ∧
    (TrainEvent.logScalar "Chamfer" "chamfer" ∈ iterEvents c i ↔ (i + 1) % 1000 = 0) ∧
    (TrainEvent.saveCkpt "latest.pth" ∈ iterEvents c i ↔ (i + 1) % 5000 = 0) ∧
    (TrainEvent.reportPlotly "Point Clouds" "precision_recall" ∈ iterEvents c i ↔
      (i + 1) % 5000 = 0) ∧
    (TrainEvent.reportPlotly "Point Clouds" "reconstruction" ∈ iterEvents c i ↔
      (i + 1) % 5000 = 0) ∧
    (TrainEvent.reportPlotly "Point Clouds" "input points" ∈ iterEvents c i ↔
      (i + 1) % 5000 = 0) ∧
    (∀ a b, TrainEvent.logScalar a b ∈ iterEvents c i → (i + 1) % 1000 = 0) ∧
    (∀ a b, TrainEvent.reportPlotly a b ∈ iterEvents c i → (i + 1) % 5000 = 0) ∧
    (∀ f, TrainEvent.saveCkpt f ∈ iterEvents c i → (i + 1) % 5000 = 0) ∧
    ((i + 1) % 1000 ≠ 0 → iterEvents c i = [TrainEvent.sample, TrainEvent.modelStep]) := by
  refine ⟨trainTrace_fst c n, ?_⟩
  by_cases h5 : (i + 1) % 5000 = 0
  · have h1 : (i + 1) % 1000 = 0 := mod1000_of_mod5000 i h5
    by_cases hlt : (c i : WithTop ℚ) < bestAfter c i
    · simp [iterEvents, iterBody, h5, h1, hlt]
    · simp [iterEvents, iterBody, h5, h1, hlt]
  · by_cases h1 : (i + 1) % 1000 = 0
    · simp [iterEvents, iterBody, h5, h1]
    · simp [iterEvents, iterBody, h5, h1]

/-- Concrete instantiation of `C7_loop_schedule` at a scalar-logging,
non-checkpoint iteration. -/
theorem C7_witness :
    let c : ℕ → ℚ := fun _ => 0
    let n : ℕ := 1
    let i : ℕ := 999
    (trainTrace c n).1 = (List.range n).map (iterEvents c) ∧
    TrainEvent.sample ∈ iterEvents c i ∧
    TrainEvent.modelStep ∈ iterEvents c i ∧
    (TrainEvent.logScalar "Loss" "loss" ∈ iterEvents c i ↔ (i + 1) % 1000 = 0) ∧
    (TrainEvent.logScalar "Chamfer" "chamfer" ∈ iterEvents c i ↔ (i + 1) % 1000 = 0) ∧
    (TrainEvent.saveCkpt "latest.pth" ∈ iterEvents c i ↔ (i + 1) % 5000 = 0) ∧
    (TrainEvent.reportPlotly "Point Clouds" "precision_recall" ∈ iterEvents c i ↔
      (i + 1) % 5000 = 0) ∧
    (TrainEvent.reportPlotly "Point Clouds" "reconstruction" ∈ iterEvents c i ↔
      (i + 1) % 5000 = 0) ∧
    (TrainEvent.reportPlotly "Point Clouds" "input points" ∈ iterEvents c i ↔
      (i + 1) % 5000 = 0) ∧
    (∀ a b, TrainEvent.logScalar a b ∈ iterEvents c i → (i + 1) % 1000 = 0) ∧
    (∀ a b, TrainEvent.reportPlotly a b ∈ iterEvents c i → (i + 1) % 5000 = 0) ∧
    (∀ f, TrainEvent.saveCkpt f ∈ iterEvents c i → (i + 1) % 5000 = 0) ∧
    ((i + 1) % 1000 ≠ 0 → iterEvents c i = [TrainEvent.sample, TrainEvent.modelStep]) :=
  C7_loop_schedule _ _ _

/-- Claim C8: `best.pth` is overwritten at a checkpoint iteration if
and only if the current chamfer value is strictly below the tracked
best (initially `np.inf`); the tracked best after `n` iterations is
the minimum of the chamfer values observed at checkpoint iterations so
far; and the tracked best is monotonically non-increasing. -/
theorem C8_best_running_min (c : ℕ → ℚ) (n i : ℕ) :
    bestAfter c 0 = ⊤ ∧
    (TrainEvent.saveCkpt "best.pth" ∈ iterEvents c i ↔
      (i + 1) % 5000 = 0 ∧ (c i : WithTop ℚ) < bestAfter c i) ∧
    bestAfter c (i + 1) =
      (if (i + 1) % 5000 = 0 ∧ (c i : WithTop ℚ) < bestAfter c i
       then (c i : WithTop ℚ) else bestAfter c i) ∧
    bestAfter c n =
      (((List.range n).filter (fun j => (j + 1) % 5000 = 0)).map
        (fun j => (c j : WithTop ℚ))).foldr min ⊤ ∧
    bestAfter c (n + 1) ≤ bestAfter c n := by
  refine ⟨rfl, ?_, by rw [bestAfter_succ, iterBody_snd], bestAfter_eq_min_fold c n, ?_⟩
  · by_cases h5 : (i + 1) % 5000 = 0
    · have h1 : (i + 1) % 1000 = 0 := mod1000_of_mod5000 i h5
      by_cases hlt : (c i : WithTop ℚ) < bestAfter c i
      · simp [iterEvents, iterBody, h5, h1, hlt]
      · simp [iterEvents, iterBody, h5, h1, hlt]
    · simp [iterEvents, iterBody, h5]
  · rw [bestAfter_succ, iterBody_snd]
    by_cases hcond : (n + 1) % 5000 = 0 ∧ (c n : WithTop ℚ) < bestAfter c n
    · rw [if_pos hcond]
      exact le_of_lt hcond.2
    · rw [if_neg hcond]

/-- Concrete instantiation of `C8_best_running_min` at the first
checkpoint iteration. -/
theorem C8_witness :
    let c : ℕ → ℚ := fun _ => 1
    let n : ℕ := 1
    let i : ℕ := 4999
    bestAfter c 0 = ⊤ ∧
    (TrainEvent.saveCkpt "best.pth" ∈ iterEvents c i ↔
      (i + 1) % 5000 = 0 ∧ (c i : WithTop ℚ) < bestAfter c i) ∧
    bestAfter c (i + 1) =
      (if (i + 1) % 5000 = 0 ∧ (c i : WithTop ℚ) < bestAfter c i
       then (c i : WithTop ℚ) else bestAfter c i) ∧
    bestAfter c n =
      (((List.range n).filter (fun j => (j + 1) % 5000 = 0)).map
        (fun j => (c j : WithTop ℚ))).foldr min ⊤ ∧
    bestAfter c (n + 1) ≤ bestAfter c n :=
  C8_best_running_min _ _ _

end Overfit

namespace Chamfer

/-- Claim C9: the Chamfer distance is symmetric: the two directed
means swap and the sum is commutative. -/
theorem C9_chamfer_symmetric (A B : List (ℚ × ℚ × ℚ)) :
    chamferL1 A B = chamferL1 B A :=
  add_comm (chamferSide A B) (chamferSide B A)

end Chamfer
